/-
Verification development for the ledger-parse bank-statement extraction and
reconciliation pipeline.

The TypeScript source is embedded shallowly:
- JavaScript numbers are modelled as exact rationals (`ℚ`).  A separate
  IEEE-754 binary64 model (`toF64` and the `f64*` operations, round to
  nearest, ties to even, normal range) is used where a claim is about the
  floating-point nature of the arithmetic itself.
- `null`/`undefined` values are modelled with `Option`.
- Diagnostic strings that the source builds with template interpolation are
  modelled by inductive message types carrying the interpolated data, so that
  message identity is preserved without modelling JS string formatting.
- Each `await` of an external call is modelled by an environment field of
  type `Except String _`: the call either resolves to a value or rejects with
  a message that propagates to the nearest enclosing `try/catch`.
-/
import Mathlib

namespace LedgerParse

/-! ### JavaScript numeric helpers

`Math.round` per the ECMAScript specification returns the closest integer,
ties rounded toward positive infinity, which on exact rationals is
`⌊q + 1/2⌋`.  The source idiom `Math.round(x * 100) / 100` appears in
`pdf-processor.ts` (runReconciliation) and `reconciler.ts` and is modelled by
`jsRound2`. -/

def jsMathRound (q : ℚ) : ℤ := ⌊q + 1/2⌋

def jsRound2 (q : ℚ) : ℚ := (jsMathRound (q * 100) : ℚ) / 100

/-- A rational is cent-quantized when it is an integer number of hundredths:
the domain of currency amounts. -/
def centQ (q : ℚ) : Prop := ∃ n : ℤ, q = (n : ℚ) / 100

/-! ### Data model of `src/lib/services/pdf-processor.ts` -/

/-- The `type` field of a transaction: `'debit' | 'credit' | 'unknown'`. -/
inductive TxType where
  | debit
  | credit
  | unknown
deriving DecidableEq, Repr

/-- The `method` field of a `ProcessingResult`. -/
inductive Method where
  | native
  | tesseract
  | easyocr
  | gmft
  | claude
  | gemini
  | hybrid
deriving DecidableEq, Repr

/-- Bounding box `{x1,y1,x2,y2,page}` attached to a transaction. -/
structure BBox where
  x1 : ℚ
  y1 : ℚ
  x2 : ℚ
  y2 : ℚ
  page : ℕ
deriving DecidableEq, Repr

/-- The `Transaction` interface of `pdf-processor.ts`. -/
structure PTransaction where
  date : Option String
  description : String
  amount : Option ℚ
  type : TxType
  balance : Option ℚ
  confidence : ℚ
  bbox : Option BBox
  rawText : String
deriving DecidableEq, Repr

/-- The `ReconciliationResult` interface of `pdf-processor.ts`. -/
structure ReconciliationResult where
  isReconciled : Bool
  calculatedClosing : Option ℚ
  difference : Option ℚ
  totalCredits : ℚ
  totalDebits : ℚ
deriving DecidableEq, Repr

/-- One iteration of the `for (const tx of transactions)` loop of
`runReconciliation` (pdf-processor.ts lines 404-419): accumulates the pair
(totalCredits, totalDebits), skipping `null` amounts, dispatching on the
transaction type, and folding unknown-typed amounts by their sign. -/
def reconStep (acc : ℚ × ℚ) (tx : PTransaction) : ℚ × ℚ :=
  match tx.amount with
  | none => acc
  | some a =>
    match tx.type with
    | TxType.credit => (acc.1 + |a|, acc.2)
    | TxType.debit => (acc.1, acc.2 + |a|)
    | TxType.unknown => if 0 < a then (acc.1 + a, acc.2) else (acc.1, acc.2 + |a|)

/-- `runReconciliation` of `pdf-processor.ts` (lines 385-432).  If either
balance is `null` it returns the expected-unknown record; otherwise it sums
credits and debits, computes the closing balance and the absolute difference
on the unrounded sums, compares the unrounded difference against 0.01, and
returns the two-decimal roundings of the computed quantities. -/
def runReconciliation (transactions : List PTransaction)
    (openingBalance closingBalance : Option ℚ) : ReconciliationResult :=
  match openingBalance, closingBalance with
  | some ob, some cb =>
    let totals := transactions.foldl reconStep (0, 0)
    let totalCredits := totals.1
    let totalDebits := totals.2
    let calculatedClosing := ob + totalCredits - totalDebits
    let difference := |calculatedClosing - cb|
    let isReconciled : Bool := decide (difference < 1/100)
    { isReconciled := isReconciled
      calculatedClosing := some (jsRound2 calculatedClosing)
      difference := some (jsRound2 difference)
      totalCredits := jsRound2 totalCredits
      totalDebits := jsRound2 totalDebits }
  | _, _ =>
    { isReconciled := false
      calculatedClosing := none
      difference := none
      totalCredits := 0
      totalDebits := 0 }

/-! ### Data model of `src/lib/processing/reconciler.ts`

`reconcileTransactions` receives `Partial<Transaction>[]` values; the fields
it reads are `rowIndex`, `isExcluded`, `credit` and `debit`, each possibly
absent.  `tx.credit || 0` and `tx.debit || 0` map absent (and zero) to 0,
modelled by `Option.getD 0`; the truthiness test `if (tx.isExcluded)` is
modelled by a `Bool`. -/

structure RTransaction where
  rowIndex : Option ℚ
  isExcluded : Bool
  credit : Option ℚ
  debit : Option ℚ
deriving DecidableEq, Repr

/-- The record returned by `reconcileTransactions`. -/
structure RReconOutcome where
  isReconciled : Bool
  calculatedClosing : ℚ
  difference : ℚ
deriving DecidableEq, Repr

/-- Stable insertion of an element into a list: the element is placed after
every earlier element whose key is less than or equal to its own. -/
def jsSortInsert (key : α → ℚ) (x : α) : List α → List α
  | [] => [x]
  | y :: ys => if key y ≤ key x then y :: jsSortInsert key x ys else x :: y :: ys

/-- Model of `[...transactions].sort((a, b) => (a.rowIndex || 0) - (b.rowIndex || 0))`:
a stable sort by the numeric key, as ECMAScript `Array.prototype.sort`
guarantees. -/
def jsStableSortBy (key : α → ℚ) : List α → List α
  | [] => []
  | x :: xs => jsSortInsert key x (jsStableSortBy key xs)

/-- The signed contribution of one row to the running balance inside the
`sorted.forEach` loop of `reconcileTransactions`: zero for excluded rows,
`credit - debit` otherwise. -/
def rowDelta (tx : RTransaction) : ℚ :=
  if tx.isExcluded then 0 else tx.credit.getD 0 - tx.debit.getD 0

/-- `reconcileTransactions` of `src/lib/processing/reconciler.ts` (lines
3-33): sorts by `rowIndex`, accumulates `credit - debit` over non-excluded
rows starting from the opening balance, rounds to two decimals, and returns
`isReconciled = true` and `difference = 0` unconditionally (the source never
compares against a stated closing balance; its own comment reads
`Should compare with extracted closing balance`). -/
def reconcileTransactions (transactions : List RTransaction)
    (openingBalance : ℚ) : RReconOutcome :=
  let sorted := jsStableSortBy (fun tx => tx.rowIndex.getD 0) transactions
  let currentBalance := sorted.foldl (fun bal tx => bal + rowDelta tx) openingBalance
  { isReconciled := true
    calculatedClosing := jsRound2 currentBalance
    difference := 0 }

/-! ### Confidence normalization in the persistence routes

`src/app/api/process/route.ts` line 185 maps a transaction confidence to a
stored percentage with
`typeof tx.confidence === 'number' ? tx.confidence * 100 : 100`;
`src/app/api/process-background/route.ts` line 138 uses default `0` instead.
An absent (non-numeric) confidence is modelled by `none`. -/

def confidenceScorePercent (confidence : Option ℚ) : ℚ :=
  match confidence with
  | some c => c * 100
  | none => 100

def confidenceScorePercentBackground (confidence : Option ℚ) : ℚ :=
  match confidence with
  | some c => c * 100
  | none => 0

/-! ### Helper lemmas -/

/-- Folding an additive update over a list equals the initial value plus the
sum of the per-element deltas. -/
theorem foldl_add_delta (g : α → ℚ) (l : List α) (a : ℚ) :
    l.foldl (fun bal tx => bal + g tx) a = a + (l.map g).sum := by
  induction l generalizing a with
  | nil => simp
  | cons x xs ih => simp [List.foldl_cons, ih, add_assoc]

theorem jsSortInsert_perm (key : α → ℚ) (x : α) (l : List α) :
    (jsSortInsert key x l).Perm (x :: l) := by
  induction l with
  | nil => simp [jsSortInsert]
  | cons y ys ih =>
    by_cases h : key y ≤ key x
    · simpa [jsSortInsert, h] using ((ih.cons y).trans (List.Perm.swap x y ys))
    · simp [jsSortInsert, h]

theorem jsStableSortBy_perm (key : α → ℚ) (l : List α) :
    (jsStableSortBy key l).Perm l := by
  induction l with
  | nil => simp [jsStableSortBy]
  | cons x xs ih =>
    exact (jsSortInsert_perm key x (jsStableSortBy key xs)).trans (ih.cons x)

/-- The running balance computed by `reconcileTransactions` before rounding is
the opening balance plus the sum of the per-row signed deltas, independent of
the sort. -/
theorem reconcile_balance_eq (txs : List RTransaction) (ob : ℚ) :
    (jsStableSortBy (fun tx => tx.rowIndex.getD 0) txs).foldl
      (fun bal tx => bal + rowDelta tx) ob = ob + (txs.map rowDelta).sum := by
  rw [foldl_add_delta]
  exact congrArg (ob + ·)
    (((jsStableSortBy_perm _ txs).map rowDelta).sum_eq)

theorem centQ_zero : centQ 0 := ⟨0, by norm_num⟩

theorem centQ_add {a b : ℚ} (ha : centQ a) (hb : centQ b) : centQ (a + b) := by
  obtain ⟨m, rfl⟩ := ha
  obtain ⟨n, rfl⟩ := hb
  exact ⟨m + n, by push_cast; ring⟩

theorem centQ_sub {a b : ℚ} (ha : centQ a) (hb : centQ b) : centQ (a - b) := by
  obtain ⟨m, rfl⟩ := ha
  obtain ⟨n, rfl⟩ := hb
  exact ⟨m - n, by push_cast; ring⟩

theorem centQ_listSum {l : List ℚ} (h : ∀ x ∈ l, centQ x) : centQ l.sum := by
  induction l with
  | nil => simpa using centQ_zero
  | cons x xs ih =>
    rw [List.sum_cons]
    exact centQ_add (h x (by simp)) (ih fun y hy => h y (by simp [hy]))

/-- On cent-quantized rationals `jsRound2` is the identity. -/
theorem jsRound2_centQ {q : ℚ} (h : centQ q) : jsRound2 q = q := by
  obtain ⟨n, rfl⟩ := h
  have h100 : ((n : ℚ) / 100) * 100 = (n : ℚ) := by
    field_simp
  have hfl : jsMathRound ((n : ℚ) / 100 * 100) = n := by
    rw [jsMathRound, h100, Int.floor_int_add]
    norm_num
  rw [jsRound2, hfl]

/-- Excluded rows contribute a zero delta, so filtering them out does not
change the summed deltas. -/
theorem rowDelta_sum_filter (txs : List RTransaction) :
    (txs.map rowDelta).sum
      = ((txs.filter fun tx => !tx.isExcluded).map rowDelta).sum := by
  induction txs with
  | nil => simp
  | cons t ts ih =>
    by_cases h : t.isExcluded
    · simp [List.filter_cons, h, rowDelta, ih]
    · simp [List.filter_cons, h, ih]

/-! ### Theorems -/

/-- C9: for every input transaction list and opening balance, the
`reconcileTransactions` function of `src/lib/processing/reconciler.ts`
returns `isReconciled = true` and `difference = 0` unconditionally; its
calculated closing is the opening balance plus the summed signed deltas of
the non-excluded rows, rounded to two decimals, and no stated closing
balance enters the computation (the function does not even receive one). -/
theorem reconcileTransactions_always_reconciled
    (txs : List RTransaction) (ob : ℚ) :
    (reconcileTransactions txs ob).isReconciled = true ∧
    (reconcileTransactions txs ob).difference = 0 ∧
    (reconcileTransactions txs ob).calculatedClosing
      = jsRound2 (ob + (txs.map rowDelta).sum) := by
  refine ⟨rfl, rfl, ?_⟩
  simp only [reconcileTransactions, reconcile_balance_eq]

/-- C6: if the opening balance or the stated closing balance is `null`,
`runReconciliation` returns `isReconciled = false`, a `null` calculated
closing and a `null` difference, for every transaction list, and raises no
error (it is a total function returning this fixed record). -/
theorem runReconciliation_null_balance (txs : List PTransaction) :
    (∀ cb, runReconciliation txs none cb =
      { isReconciled := false, calculatedClosing := none, difference := none,
        totalCredits := 0, totalDebits := 0 }) ∧
    (∀ ob, runReconciliation txs ob none =
      { isReconciled := false, calculatedClosing := none, difference := none,
        totalCredits := 0, totalDebits := 0 }) := by
  constructor
  · intro cb
    cases cb <;> rfl
  · intro ob
    cases ob <;> rfl

/-- C8: in both persistence routes a numeric per-item confidence of 0 is
stored as 0 percent, every numeric confidence `c` is stored as `c * 100`
(so a numeric value is never replaced by a default), and the defaults
(100 in `process/route.ts`, 0 in `process-background/route.ts`) apply only
when no numeric confidence is supplied at all. -/
theorem confidence_zero_preserved :
    confidenceScorePercent (some 0) = 0 ∧
    confidenceScorePercentBackground (some 0) = 0 ∧
    (∀ c : ℚ, confidenceScorePercent (some c) = c * 100) ∧
    (∀ c : ℚ, confidenceScorePercentBackground (some c) = c * 100) ∧
    confidenceScorePercent none = 100 ∧
    confidenceScorePercentBackground none = 0 := by
  refine ⟨?_, ?_, fun c => rfl, fun c => rfl, rfl, rfl⟩ <;>
    norm_num [confidenceScorePercent, confidenceScorePercentBackground]

/-- C5 (counterexample): `runReconciliation` decides `isReconciled` on the
unrounded difference, not on the returned (rounded) `calculatedClosing`.
With opening balance 100.0051, no transactions and stated closing 100 the
unrounded difference is 0.0051, so the code reports `isReconciled = true`,
yet the returned `calculatedClosing` is the rounded 100.01, whose distance
from the stated closing is 0.01, not strictly below 0.01 — falsifying
`isReconciled = (|calculatedClosing - statedClosing| < 0.01)` read on the
returned field. -/
theorem runReconciliation_threshold_counterexample :
    (runReconciliation [] (some (1000051/10000)) (some 100)).isReconciled = true ∧
    (runReconciliation [] (some (1000051/10000)) (some 100)).calculatedClosing.getD 0
      = 10001/100 ∧
    ¬ (|(runReconciliation [] (some (1000051/10000)) (some 100)).calculatedClosing.getD 0
        - 100| < 1/100) := by
  refine ⟨?_, ?_, ?_⟩ <;>
    norm_num [runReconciliation, reconStep, jsRound2, jsMathRound, Int.floor_eq_iff,
      abs_lt, abs_sub_lt_iff]

/-- C5 (amended): for non-null balances `runReconciliation` returns
`calculatedClosing = round2(opening + totalCredits - totalDebits)` and
`isReconciled = (|(opening + totalCredits - totalDebits) - statedClosing| < 0.01)`
computed on the unrounded sum (not on the rounded returned field); on
Scenario A — opening 1000, credit 500, debit 200, debit 0.01, stated closing
1299.99 — it returns `calculatedClosing = 1299.99`, `isReconciled = true`
and difference 0. -/
theorem runReconciliation_formula_and_scenarioA :
    (∀ (txs : List PTransaction) (ob cb : ℚ),
      (runReconciliation txs (some ob) (some cb)).calculatedClosing
        = some (jsRound2
            (ob + (txs.foldl reconStep (0, 0)).1 - (txs.foldl reconStep (0, 0)).2)) ∧
      ((runReconciliation txs (some ob) (some cb)).isReconciled = true ↔
        |ob + (txs.foldl reconStep (0, 0)).1 - (txs.foldl reconStep (0, 0)).2 - cb|
          < 1/100) ∧
      (runReconciliation txs (some ob) (some cb)).difference
        = some (jsRound2
            |ob + (txs.foldl reconStep (0, 0)).1 - (txs.foldl reconStep (0, 0)).2 - cb|)) ∧
    runReconciliation
      [⟨none, ("deposit"), some 500, TxType.credit, none, 1, none, ("deposit")⟩,
       ⟨none, ("payment"), some 200, TxType.debit, none, 1, none, ("payment")⟩,
       ⟨none, ("fee"), some (1/100), TxType.debit, none, 1, none, ("fee")⟩]
      (some 1000) (some (129999/100))
      = { isReconciled := true, calculatedClosing := some (129999/100),
          difference := some 0, totalCredits := 500, totalDebits := 20001/100 } := by
  constructor
  · intro txs ob cb
    refine ⟨rfl, ?_, rfl⟩
    simp [runReconciliation, decide_eq_true_eq]
  · norm_num [runReconciliation, reconStep, jsRound2, jsMathRound, Int.floor_eq_iff,
      List.foldl_cons, abs_of_nonneg]

/-- C3 (counterexample): with sub-cent amounts the two-decimal rounding of
the calculated closing can absorb an exclusion entirely: excluding the
0.002-credit row from `[credit 0.005, credit 0.002]` leaves
`calculatedClosing` unchanged (both round to 0.01), so the change is 0, not
the signed amount 0.002 of the excluded transaction. -/
theorem reconcileTransactions_exclusion_counterexample :
    (reconcileTransactions
        [⟨some 0, false, some (5/1000), none⟩, ⟨some 1, false, some (2/1000), none⟩]
        0).calculatedClosing
      - (reconcileTransactions
        [⟨some 0, false, some (5/1000), none⟩, ⟨some 1, true, some (2/1000), none⟩]
        0).calculatedClosing
      = 0 ∧
    rowDelta ⟨some 1, false, some (2/1000), none⟩ = 2/1000 ∧ (2/1000 : ℚ) ≠ 0 := by
  refine ⟨?_, ?_, by norm_num⟩ <;>
    norm_num [reconcileTransactions, jsStableSortBy, jsSortInsert, rowDelta,
      jsRound2, jsMathRound, Int.floor_eq_iff]

/-- C3 (amended): for cent-quantized opening balance and amounts, marking one
transaction excluded changes `calculatedClosing` by exactly that
transaction's signed amount `credit - debit`, marking it back restores the
original verdict exactly, and excluded rows never participate in the sums:
reconciling any list equals reconciling its non-excluded rows only. -/
theorem reconcileTransactions_exclusion_effect
    (l1 l2 : List RTransaction) (t : RTransaction) (ob : ℚ)
    (hob : centQ ob)
    (hall : ∀ tx ∈ l1 ++ t :: l2, centQ (tx.credit.getD 0) ∧ centQ (tx.debit.getD 0))
    (ht : t.isExcluded = false) :
    (reconcileTransactions (l1 ++ t :: l2) ob).calculatedClosing
        - (reconcileTransactions (l1 ++ { t with isExcluded := true } :: l2) ob).calculatedClosing
      = t.credit.getD 0 - t.debit.getD 0 ∧
    reconcileTransactions
        (l1 ++ { { t with isExcluded := true } with isExcluded := false } :: l2) ob
      = reconcileTransactions (l1 ++ t :: l2) ob ∧
    (∀ (txs : List RTransaction) (ob2 : ℚ), reconcileTransactions txs ob2
      = reconcileTransactions (txs.filter fun tx => !tx.isExcluded) ob2) := by
  have hrestore : { { t with isExcluded := true } with isExcluded := false } = t := by
    cases t
    simp_all
  have hcent : ∀ tx ∈ l1 ++ t :: l2, centQ (rowDelta tx) := by
    intro tx hx
    rcases hall tx hx with ⟨hc, hd⟩
    unfold rowDelta
    split
    · exact centQ_zero
    · exact centQ_sub hc hd
  have hcent1 : centQ ((l1.map rowDelta).sum) := by
    refine centQ_listSum ?_
    intro x hx
    rcases List.mem_map.mp hx with ⟨tx, htx, rfl⟩
    exact hcent tx (by simp [htx])
  have hcent2 : centQ ((l2.map rowDelta).sum) := by
    refine centQ_listSum ?_
    intro x hx
    rcases List.mem_map.mp hx with ⟨tx, htx, rfl⟩
    exact hcent tx (by simp [htx])
  have hcentt : centQ (rowDelta t) := hcent t (by simp)
  have hzero : rowDelta { t with isExcluded := true } = 0 := by
    simp [rowDelta]
  have hc1 : (reconcileTransactions (l1 ++ t :: l2) ob).calculatedClosing
      = ob + ((l1.map rowDelta).sum + (rowDelta t + (l2.map rowDelta).sum)) := by
    show jsRound2 _ = _
    rw [reconcile_balance_eq]
    rw [jsRound2_centQ]
    · simp [List.map_append, List.sum_append, add_assoc]
    · simp only [List.map_append, List.sum_append, List.map_cons, List.sum_cons]
      exact centQ_add hob (centQ_add hcent1 (centQ_add hcentt hcent2))
  have hc2 : (reconcileTransactions (l1 ++ { t with isExcluded := true } :: l2) ob).calculatedClosing
      = ob + ((l1.map rowDelta).sum + (l2.map rowDelta).sum) := by
    show jsRound2 _ = _
    rw [reconcile_balance_eq]
    rw [jsRound2_centQ]
    · simp [List.map_append, List.sum_append, hzero]
    · simp only [List.map_append, List.sum_append, List.map_cons, List.sum_cons, hzero]
      exact centQ_add hob (by simpa using centQ_add hcent1 hcent2)
  refine ⟨?_, by rw [hrestore], ?_⟩
  · rw [hc1, hc2]
    have hdelta : rowDelta t = t.credit.getD 0 - t.debit.getD 0 := by
      simp [rowDelta, ht]
    rw [← hdelta]
    ring
  · intro txs ob2
    show (⟨true, jsRound2 ((jsStableSortBy (fun tx => tx.rowIndex.getD 0) txs).foldl
            (fun bal tx => bal + rowDelta tx) ob2), 0⟩ : RReconOutcome)
        = ⟨true, jsRound2 ((jsStableSortBy (fun tx => tx.rowIndex.getD 0)
            (txs.filter fun tx => !tx.isExcluded)).foldl
            (fun bal tx => bal + rowDelta tx) ob2), 0⟩
    rw [reconcile_balance_eq, reconcile_balance_eq, rowDelta_sum_filter txs]

/-- Witness for `reconcileTransactions_exclusion_effect` at the concrete
one-element list with a 0.01 credit and opening balance 0. -/
theorem reconcileTransactions_exclusion_effect_witness :
    centQ (0 : ℚ) ∧
    (reconcileTransactions [⟨some 0, false, some (1/100), none⟩] 0).calculatedClosing
        - (reconcileTransactions [⟨some 0, true, some (1/100), none⟩] 0).calculatedClosing
      = 1/100 := by
  have hall : ∀ tx ∈ ([] ++ (⟨some 0, false, some (1/100), none⟩ : RTransaction) :: []),
      centQ (tx.credit.getD 0) ∧ centQ (tx.debit.getD 0) := by
    intro tx hx
    have hx2 : tx = ⟨some 0, false, some (1/100), none⟩ := by simpa using hx
    subst hx2
    refine ⟨⟨1, ?_⟩, ⟨0, ?_⟩⟩ <;> norm_num
  have h := reconcileTransactions_exclusion_effect [] []
      ⟨some 0, false, some (1/100), none⟩ 0 centQ_zero hall rfl
  refine ⟨centQ_zero, ?_⟩
  have h1 := h.1
  simp only [List.nil_append] at h1
  rw [h1]
  norm_num

/-! ### IEEE-754 binary64 model

JavaScript numbers are IEEE-754 binary64 values.  For claims about the
floating-point nature of the arithmetic, a double is modelled as the exact
rational it denotes, and every arithmetic operation rounds its exact result
back to 53 significant bits with round-to-nearest, ties-to-even.  Subnormal
underflow and overflow are outside the modelled (normal) range; all inputs
considered here are normal. -/

/-- Floor of the base-2 logarithm of a positive rational. -/
def floorLog2Q (q : ℚ) : ℤ := Int.log 2 q

/-- Round to the nearest integer, ties to even. -/
def roundHalfEven (q : ℚ) : ℤ :=
  if q - ⌊q⌋ < 1/2 then ⌊q⌋
  else if 1/2 < q - ⌊q⌋ then ⌊q⌋ + 1
  else if ⌊q⌋ % 2 = 0 then ⌊q⌋ else ⌊q⌋ + 1

/-- Round a positive rational to the nearest binary64 value: scale into
`[2^52, 2^53)`, round the mantissa to an integer (ties to even), scale back. -/
def toF64Pos (q : ℚ) : ℚ :=
  ((roundHalfEven (q / (2:ℚ)^(floorLog2Q q - 52)) : ℤ) : ℚ)
    * (2:ℚ)^(floorLog2Q q - 52)

/-- Round a rational to the nearest binary64 value (normal range). -/
def toF64 (q : ℚ) : ℚ :=
  if q = 0 then 0 else if q < 0 then -(toF64Pos (-q)) else toF64Pos q

/-- Binary64 addition: exact sum, correctly rounded. -/
def f64add (x y : ℚ) : ℚ := toF64 (x + y)

/-- Binary64 subtraction: exact difference, correctly rounded. -/
def f64sub (x y : ℚ) : ℚ := toF64 (x - y)

/-- Binary64 multiplication: exact product, correctly rounded. -/
def f64mul (x y : ℚ) : ℚ := toF64 (x * y)

/-- Binary64 division: exact quotient, correctly rounded. -/
def f64div (x y : ℚ) : ℚ := toF64 (x / y)

/-- One iteration of the credit/debit accumulation loop of
`runReconciliation`, under binary64 semantics: each `+=` rounds. -/
def reconStepF64 (acc : ℚ × ℚ) (tx : PTransaction) : ℚ × ℚ :=
  match tx.amount with
  | none => acc
  | some a =>
    match tx.type with
    | TxType.credit => (f64add acc.1 |a|, acc.2)
    | TxType.debit => (acc.1, f64add acc.2 |a|)
    | TxType.unknown =>
      if 0 < a then (f64add acc.1 a, acc.2) else (acc.1, f64add acc.2 |a|)

/-- `runReconciliation` of `pdf-processor.ts` under binary64 semantics:
the same control flow as `runReconciliation`, with every JavaScript `number`
operation correctly rounded (`Math.abs` and `Math.round` are exact on
doubles; the literal `0.01` denotes the double nearest to 1/100). -/
def runReconciliationF64 (transactions : List PTransaction)
    (openingBalance closingBalance : Option ℚ) : ReconciliationResult :=
  match openingBalance, closingBalance with
  | some ob, some cb =>
    let totals := transactions.foldl reconStepF64 (0, 0)
    let totalCredits := totals.1
    let totalDebits := totals.2
    let calculatedClosing := f64sub (f64add ob totalCredits) totalDebits
    let difference := |f64sub calculatedClosing cb|
    let isReconciled : Bool := decide (difference < toF64 (1/100))
    { isReconciled := isReconciled
      calculatedClosing :=
        some (f64div ((jsMathRound (f64mul calculatedClosing 100) : ℤ) : ℚ) 100)
      difference :=
        some (f64div ((jsMathRound (f64mul difference 100) : ℤ) : ℚ) 100)
      totalCredits := f64div ((jsMathRound (f64mul totalCredits 100) : ℤ) : ℚ) 100
      totalDebits := f64div ((jsMathRound (f64mul totalDebits 100) : ℤ) : ℚ) 100 }
  | _, _ =>
    { isReconciled := false
      calculatedClosing := none
      difference := none
      totalCredits := 0
      totalDebits := 0 }

/-! Evaluation helpers for the binary64 model. -/

theorem int_log_two_eq {q : ℚ} {e : ℤ} (hq : 0 < q)
    (h1 : (2:ℚ)^e ≤ q) (h2 : q < (2:ℚ)^(e+1)) : Int.log 2 q = e := by
  have hA := Int.zpow_log_le_self (b := 2) (r := q) (by norm_num) hq
  have hB := Int.lt_zpow_succ_log_self (b := 2) (by norm_num) q
  by_contra hne
  rcases lt_or_gt_of_ne hne with h | h
  · have hle : Int.log 2 q + 1 ≤ e := by omega
    have := zpow_le_zpow_right₀ (a := (2:ℚ)) (by norm_num) hle
    exact absurd (lt_of_lt_of_le (lt_of_lt_of_le hB this) h1) (lt_irrefl _)
  · have hle : e + 1 ≤ Int.log 2 q := by omega
    have := zpow_le_zpow_right₀ (a := (2:ℚ)) (by norm_num) hle
    exact absurd (lt_of_lt_of_le (lt_of_lt_of_le h2 this) hA) (lt_irrefl _)

theorem roundHalfEven_eval_lo {q : ℚ} {f : ℤ} (hf : ⌊q⌋ = f)
    (h : q - f < 1/2) : roundHalfEven q = f := by
  rw [roundHalfEven, hf, if_pos h]

theorem roundHalfEven_eval_hi {q : ℚ} {f : ℤ} (hf : ⌊q⌋ = f)
    (h : 1/2 < q - f) : roundHalfEven q = f + 1 := by
  rw [roundHalfEven, hf, if_neg (by linarith), if_pos h]

theorem roundHalfEven_eval_tie_odd {q : ℚ} {f : ℤ} (hf : ⌊q⌋ = f)
    (h : q - f = 1/2) (ho : ¬ f % 2 = 0) : roundHalfEven q = f + 1 := by
  rw [roundHalfEven, hf, if_neg (by linarith), if_neg (by linarith), if_neg ho]

theorem toF64_eval_pos {q : ℚ} {e m : ℤ} (hq : 0 < q)
    (h1 : (2:ℚ)^e ≤ q) (h2 : q < (2:ℚ)^(e+1))
    (hm : roundHalfEven (q / (2:ℚ)^(e - 52)) = m) :
    toF64 q = (m : ℚ) * (2:ℚ)^(e - 52) := by
  have hlog : Int.log 2 q = e := int_log_two_eq hq h1 h2
  rw [toF64, if_neg (by positivity), if_neg (by linarith), toF64Pos, floorLog2Q,
    hlog, hm]

theorem toF64_oneTenth : toF64 (1/10) = 7205759403792794 / 2^56 := by
  have hf : ⌊(1/10 : ℚ) / (2:ℚ)^((-4 : ℤ) - 52)⌋ = 7205759403792793 := by
    norm_num [Int.floor_eq_iff]
  have hm := roundHalfEven_eval_hi hf (by norm_num)
  have h := toF64_eval_pos (by norm_num) (by norm_num) (by norm_num) hm
  rw [h]
  norm_num

theorem toF64_twoTenths : toF64 (2/10) = 7205759403792794 / 2^55 := by
  have hf : ⌊(2/10 : ℚ) / (2:ℚ)^((-3 : ℤ) - 52)⌋ = 7205759403792793 := by
    norm_num [Int.floor_eq_iff]
  have hm := roundHalfEven_eval_hi hf (by norm_num)
  have h := toF64_eval_pos (by norm_num) (by norm_num) (by norm_num) hm
  rw [h]
  norm_num

theorem toF64_threeTenths : toF64 (3/10) = 5404319552844595 / 2^54 := by
  have hf : ⌊(3/10 : ℚ) / (2:ℚ)^((-2 : ℤ) - 52)⌋ = 5404319552844595 := by
    norm_num [Int.floor_eq_iff]
  have hm := roundHalfEven_eval_lo hf (by norm_num)
  have h := toF64_eval_pos (by norm_num) (by norm_num) (by norm_num) hm
  rw [h]
  norm_num

/-- The double nearest 0.1 is itself a double: rounding is the identity. -/
theorem toF64_idem_a :
    toF64 (7205759403792794 / 2^56 : ℚ) = 7205759403792794 / 2^56 := by
  have hf : ⌊(7205759403792794 / 2^56 : ℚ) / (2:ℚ)^((-4 : ℤ) - 52)⌋
      = 7205759403792794 := by
    norm_num [Int.floor_eq_iff]
  have hm := roundHalfEven_eval_lo hf (by norm_num)
  have h := toF64_eval_pos (by norm_num) (by norm_num) (by norm_num) hm
  rw [h]
  norm_num

/-- The rounded sum of the doubles nearest 0.1 and 0.2: the exact sum lands
exactly between two doubles and ties to the even mantissa, producing the
well-known 0.30000000000000004. -/
theorem f64add_literals :
    f64add (7205759403792794 / 2^56 : ℚ) (7205759403792794 / 2^55)
      = 5404319552844596 / 2^54 := by
  rw [f64add]
  have hsum : (7205759403792794 : ℚ)/2^56 + 7205759403792794/2^55
      = 21617278211378382/2^56 := by norm_num
  rw [hsum]
  have hf : ⌊(21617278211378382/2^56 : ℚ) / (2:ℚ)^((-2 : ℤ) - 52)⌋
      = 5404319552844595 := by
    norm_num [Int.floor_eq_iff]
  have hm := roundHalfEven_eval_tie_odd hf (by norm_num) (by decide)
  have h := toF64_eval_pos (by norm_num) (by norm_num) (by norm_num) hm
  rw [h]
  norm_num

theorem f64mul_engine :
    f64mul (5404319552844596 / 2^54 : ℚ) 100 = 8444249301319681 / 2^48 := by
  rw [f64mul]
  have hprod : (5404319552844596 / 2^54 : ℚ) * 100 = 135107988821114900/2^52 := by
    norm_num
  rw [hprod]
  have hf : ⌊(135107988821114900/2^52 : ℚ) / (2:ℚ)^((4 : ℤ) - 52)⌋
      = 8444249301319681 := by
    norm_num [Int.floor_eq_iff]
  have hm := roundHalfEven_eval_lo hf (by norm_num)
  have h := toF64_eval_pos (by norm_num) (by norm_num) (by norm_num) hm
  rw [h]
  norm_num

theorem f64div_engine : f64div (30 : ℚ) 100 = 5404319552844595 / 2^54 := by
  rw [f64div, show ((30 : ℚ) / 100) = 3/10 by norm_num]
  exact toF64_threeTenths

/-- C4: the reconciliation engine of `pdf-processor.ts` does not use exact
decimal arithmetic.  Under the binary64 semantics of JavaScript numbers, the
doubles nearest 0.10 and 0.20 sum to 0.30000000000000004 — not to the exact
decimal 3/10, and not even to the double nearest 3/10 — and on the
transaction set [credit 0.10, credit 0.20] the engine reports a credit total
different from the exact-decimal reference 0.30 that an integer-cent
computation (the idealized model) produces. -/
theorem runReconciliation_float_drift :
    f64add (toF64 (1/10)) (toF64 (2/10)) ≠ 3/10 ∧
    f64add (toF64 (1/10)) (toF64 (2/10)) ≠ toF64 (3/10) ∧
    (runReconciliationF64
        [⟨none, ("credit a"), some (toF64 (1/10)), TxType.credit, none, 1, none, ("a")⟩,
         ⟨none, ("credit b"), some (toF64 (2/10)), TxType.credit, none, 1, none, ("b")⟩]
        (some 0) (some (toF64 (3/10)))).totalCredits ≠ 3/10 ∧
    (runReconciliation
        [⟨none, ("credit a"), some (1/10), TxType.credit, none, 1, none, ("a")⟩,
         ⟨none, ("credit b"), some (2/10), TxType.credit, none, 1, none, ("b")⟩]
        (some 0) (some (3/10))).totalCredits = 3/10 := by
  have habs1 : |(7205759403792794 / 2^56 : ℚ)| = 7205759403792794 / 2^56 :=
    abs_of_pos (by norm_num)
  have habs2 : |(7205759403792794 / 2^55 : ℚ)| = 7205759403792794 / 2^55 :=
    abs_of_pos (by norm_num)
  have hzero_add : f64add 0 (7205759403792794 / 2^56 : ℚ)
      = 7205759403792794 / 2^56 := by
    rw [f64add, zero_add]
    exact toF64_idem_a
  refine ⟨?_, ?_, ?_, ?_⟩
  · rw [toF64_oneTenth, toF64_twoTenths, f64add_literals]
    norm_num
  · rw [toF64_oneTenth, toF64_twoTenths, f64add_literals, toF64_threeTenths]
    norm_num
  · have hfold : List.foldl reconStepF64 ((0 : ℚ), (0 : ℚ))
        [⟨none, ("credit a"), some (toF64 (1/10)), TxType.credit, none, 1, none, ("a")⟩,
         ⟨none, ("credit b"), some (toF64 (2/10)), TxType.credit, none, 1, none, ("b")⟩]
        = (5404319552844596 / 2^54, 0) := by
      simp only [List.foldl_cons, List.foldl_nil, reconStepF64, toF64_oneTenth,
        toF64_twoTenths, habs1, habs2, hzero_add, f64add_literals]
    show (runReconciliationF64 _ _ _).totalCredits ≠ 3/10
    simp only [runReconciliationF64, hfold]
    rw [f64mul_engine]
    rw [show jsMathRound (8444249301319681 / 2^48 : ℚ) = 30 by
      norm_num [jsMathRound, Int.floor_eq_iff]]
    rw [show ((30 : ℤ) : ℚ) = 30 by norm_num, f64div_engine]
    norm_num
  · simp only [runReconciliation, List.foldl_cons, List.foldl_nil, reconStep]
    rw [show |(1/10 : ℚ)| = 1/10 from abs_of_pos (by norm_num),
      show |(2/10 : ℚ)| = 2/10 from abs_of_pos (by norm_num)]
    norm_num [jsRound2, jsMathRound, Int.floor_eq_iff]

/-! ### Orchestration model of `processDocument` (`pdf-processor.ts` lines 50-170)

Diagnostic messages built by string interpolation in the source are modelled
as inductive messages carrying the interpolated data:
- `extractorMsg s` — an entry of an extraction result `errors` array;
- `geminiExtractionFailed s` — the string `Gemini extraction failed: <s>`
  appended by the `catch` of `processWithGemini`;
- `ocrExtractionFailed s` — the string `OCR extraction failed: <s>` with
  which the `catch` of `processScannedPDF` replaces the errors list;
- `noTransactionsDetected` — the generic line-158 message
  `No transactions detected. The document format might not be supported or
  the quality is too low.`;
- `processingFailed s` — the string `Processing failed: <s>` appended by the
  top-level `catch` of `processDocument`. -/

inductive ErrorMsg where
  | extractorMsg (s : String)
  | geminiExtractionFailed (s : String)
  | ocrExtractionFailed (s : String)
  | noTransactionsDetected
  | processingFailed (s : String)
deriving DecidableEq, Repr

/-- Warnings pushed by `processDocument` and `processWithGemini`, carrying
the interpolated numeric data of the source template strings. -/
inductive WarnMsg where
  | lowConfidence (c : ℚ)
  | reconciliationMismatch (d : ℚ)
  | geminiRetryAfterMismatch
  | multiAccount (n : ℕ)
deriving DecidableEq, Repr

/-- The `ProcessingResult` interface of `pdf-processor.ts`.
`processingTimeMs` is wall-clock metadata and is not modelled. -/
structure ProcessingResult where
  success : Bool
  method : Method
  bankDetected : Option String
  transactions : List PTransaction
  openingBalance : Option ℚ
  closingBalance : Option ℚ
  calculatedClosing : Option ℚ
  isReconciled : Bool
  reconciliationDifference : Option ℚ
  pageCount : ℕ
  confidence : ℚ
  cost : ℚ
  errors : List ErrorMsg
  warnings : List WarnMsg
deriving DecidableEq, Repr

/-- The initial `result` value of `processDocument` (lines 63-79). -/
def initialResult : ProcessingResult :=
  { success := false, method := Method.native, bankDetected := none,
    transactions := [], openingBalance := none, closingBalance := none,
    calculatedClosing := none, isReconciled := false,
    reconciliationDifference := none, pageCount := 0, confidence := 0,
    cost := 0, errors := [], warnings := [] }

inductive PdfKind where
  | native
  | scanned
deriving DecidableEq, Repr

inductive ScanQuality where
  | good
  | poor
deriving DecidableEq, Repr

/-- The `PDFTypeResult` interface of `pdf-type-detector.ts`. -/
structure PDFTypeResult where
  type : PdfKind
  scanQuality : Option ScanQuality
  pageCount : ℕ
  hasText : Bool
  textDensity : ℚ
  confidence : ℚ
deriving DecidableEq, Repr

/-- A raw transaction in the JSON returned by the Gemini extractor. -/
structure GeminiTx where
  date : Option String
  description : String
  amount : Option ℚ
  type : TxType
  balance : Option ℚ
  accountNumber : Option String
deriving DecidableEq, Repr

/-- A per-account sub-object in a multi-account Gemini response. -/
structure GeminiAccount where
  accountNumber : Option String
  openingBalance : Option ℚ
  closingBalance : Option ℚ
  transactions : List GeminiTx
deriving DecidableEq, Repr

/-- The parsed `extraction.data` of a successful Gemini call; absent arrays
are modelled as empty lists, non-numeric balances as `none`. -/
structure GeminiData where
  isMultiAccount : Bool
  accounts : List GeminiAccount
  transactions : List GeminiTx
  openingBalance : Option ℚ
  closingBalance : Option ℚ
  bankName : Option String
deriving DecidableEq, Repr

/-- The per-transaction mapping of `processWithGemini` (lines 308-317):
absolute value of numeric amounts, fixed confidence 0.95, no bbox, and a
rawText prefixed with the account tag when present. -/
def geminiMapTx (t : GeminiTx) : PTransaction :=
  { date := t.date
    description := t.description
    amount := t.amount.map (fun a => |a|)
    type := t.type
    balance := t.balance
    confidence := 95/100
    bbox := none
    rawText := (match t.accountNumber with
      | some acct => ("[") ++ acct ++ ("] ") ++ t.description
      | none => t.description) }

/-- Lines 293-306: prefer the aggregated `data.transactions`; if empty and
per-account lists exist, flatten them, attaching each account tag. -/
def geminiAllTransactions (d : GeminiData) : List GeminiTx :=
  if d.transactions = [] ∧ d.accounts ≠ [] then
    d.accounts.flatMap (fun acc => acc.transactions.map
      (fun t => { t with accountNumber := acc.accountNumber }))
  else d.transactions

/-- The multi-account balance summation loop (lines 327-341): running total
plus a has-seen-a-number flag. -/
def accumBalance (accounts : List GeminiAccount)
    (get : GeminiAccount → Option ℚ) : ℚ × Bool :=
  accounts.foldl (fun acc a =>
    match get a with
    | some v => (acc.1 + v, true)
    | none => acc) (0, false)

/-- `processWithGemini` of `pdf-processor.ts` (lines 272-382), as a function
of the resolved outcome of `extractWithGemini`: a failure (thrown error or
unsuccessful extraction) reaches the local `catch`, which appends one
`Gemini extraction failed` message to the accumulated errors; a success
replaces the transactions and balances and resets `errors` to `[]`. -/
def processWithGemini (g : Except String GeminiData)
    (current : ProcessingResult) : ProcessingResult :=
  match g with
  | Except.error msg =>
    { current with errors := current.errors ++ [ErrorMsg.geminiExtractionFailed msg] }
  | Except.ok data =>
    let accounts := data.accounts
    let transactions := (geminiAllTransactions data).map geminiMapTx
    let openingBalance : Option ℚ :=
      if data.isMultiAccount = true ∧ accounts ≠ [] then
        (let p := accumBalance accounts (fun a => a.openingBalance)
         if p.2 = true then some p.1 else none)
      else data.openingBalance
    let closingBalance : Option ℚ :=
      if data.isMultiAccount = true ∧ accounts ≠ [] then
        (let p := accumBalance accounts (fun a => a.closingBalance)
         if p.2 = true then some p.1 else none)
      else data.closingBalance
    { current with
        method := Method.gemini
        bankDetected := (match data.bankName with
          | some b => some b
          | none => current.bankDetected)
        transactions := transactions
        openingBalance := openingBalance
        closingBalance := closingBalance
        pageCount := if current.pageCount ≠ 0 then current.pageCount else 1
        confidence := 95/100
        cost := 0
        errors := []
        warnings := if data.isMultiAccount = true then
            [WarnMsg.multiAccount accounts.length]
          else [] }

/-- The `ExtractionResult` returned by `extractFromNativePDF`
(`native-pdf-extractor.ts`); `statementPeriod` is not read by
`processNativePDF` and is omitted. -/
structure NativeExtraction where
  success : Bool
  bankDetected : Option String
  transactions : List PTransaction
  openingBalance : Option ℚ
  closingBalance : Option ℚ
  pageCount : ℕ
  confidence : ℚ
  errors : List ErrorMsg
deriving DecidableEq, Repr

/-- `processNativePDF` of `pdf-processor.ts` (lines 173-189). -/
def processNativePDF (extraction : NativeExtraction)
    (current : ProcessingResult) : ProcessingResult :=
  { current with
      method := Method.native
      bankDetected := extraction.bankDetected
      transactions := extraction.transactions
      openingBalance := extraction.openingBalance
      closingBalance := extraction.closingBalance
      pageCount := extraction.pageCount
      confidence := extraction.confidence
      cost := 0
      errors := extraction.errors
      warnings := [] }

/-- A parsed JSON body from the Python worker (GMFT or OCR endpoint). -/
structure ScanData where
  success : Bool
  transactions : List PTransaction
  opening_balance : Option ℚ
  closing_balance : Option ℚ
  page_count : ℕ
  confidence : ℚ
  errors : List ErrorMsg
deriving DecidableEq, Repr

/-- The two `fetch` outcomes inside `processScannedPDF`: for GMFT, a thrown
fetch (`Except.error`) falls through to OCR, `Except.ok none` models a
non-ok response status, `Except.ok (some d)` an ok response with body `d`;
for OCR, `Except.error` models a thrown fetch or a non-ok status (the source
throws on `!response.ok` and both reach the same `catch`). -/
structure ScanStep where
  gmft : Except String (Option ScanData)
  ocr : Except String ScanData

/-- The OCR fallback half of `processScannedPDF` (lines 236-268): on success
the result fields replace the current ones; on failure the errors list is
replaced (not appended to) by one `OCR extraction failed` message. -/
def processScannedOCR (ocr : Except String ScanData) (quality : ScanQuality)
    (current : ProcessingResult) : ProcessingResult :=
  match ocr with
  | Except.ok r =>
    { current with
        method := (match quality with
          | ScanQuality.good => Method.tesseract
          | ScanQuality.poor => Method.easyocr)
        transactions := r.transactions
        openingBalance := r.opening_balance
        closingBalance := r.closing_balance
        pageCount := r.page_count
        confidence := r.confidence
        cost := 0
        errors := r.errors
        warnings := [] }
  | Except.error msg =>
    { current with errors := [ErrorMsg.ocrExtractionFailed msg] }

/-- `processScannedPDF` of `pdf-processor.ts` (lines 192-269): try GMFT
first, accept only a successful non-empty result, otherwise fall back to the
quality-selected OCR endpoint. -/
def processScannedPDF (step : ScanStep) (quality : ScanQuality)
    (current : ProcessingResult) : ProcessingResult :=
  match step.gmft with
  | Except.ok (some gmftResult) =>
    if gmftResult.success = true ∧ gmftResult.transactions ≠ [] then
      { current with
          method := Method.gmft
          bankDetected := none
          transactions := gmftResult.transactions
          openingBalance := gmftResult.opening_balance
          closingBalance := gmftResult.closing_balance
          pageCount := gmftResult.page_count
          confidence := gmftResult.confidence
          cost := 0
          errors := gmftResult.errors
          warnings := [] }
    else processScannedOCR step.ocr quality current
  | Except.ok none => processScannedOCR step.ocr quality current
  | Except.error _ => processScannedOCR step.ocr quality current

/-- The `options` parameter of `processDocument`. -/
inductive ForceMethod where
  | native
  | ocr
  | gemini
deriving DecidableEq, Repr

structure ProcessOptions where
  forceMethod : Option ForceMethod
  confidenceThreshold : Option ℚ
  enableReconciliation : Option Bool
deriving DecidableEq, Repr

/-- The environment of one orchestration run: the configuration flag
`GEMINI_API_KEY` and, for each awaited external call site, either the value
that call resolves to or the message it rejects with (a rejection propagates
to the `try/catch` of `processDocument`).  The three Gemini call sites
(primary, low-confidence fallback, reconciliation retry) are separate
fields because each is a separate network call. -/
structure OrchestratorEnv where
  hasGeminiKey : Bool
  detect : Except String PDFTypeResult
  geminiPrimary : Except String (Except String GeminiData)
  geminiFallback : Except String (Except String GeminiData)
  geminiReconRetry : Except String (Except String GeminiData)
  nativeCall : Except String NativeExtraction
  scannedCall : Except String ScanStep

/-- Lines 156-161 of `processDocument`: the final success decision and the
overwriting assignments `result.errors = errors` and
`result.warnings = warnings` from the local accumulator arrays.  The local
`errors` array is still empty at this point (nothing pushed to it earlier),
which the `errs`/`errs.length` mirror makes explicit. -/
def finalizeResult (r4 : ProcessingResult) (warns2 : List WarnMsg) :
    ProcessingResult :=
  let success : Bool := decide (0 < r4.transactions.length)
  let errs : List ErrorMsg := []
  let errs2 := if success = false ∧ errs.length = 0 then
      errs ++ [ErrorMsg.noTransactionsDetected]
    else errs
  { r4 with success := success, errors := errs2, warnings := warns2 }

/-- Step 4 of `processDocument` (lines 114-154) followed by the final
assignments: reconciliation, the mismatch warning, and the optional Gemini
re-extraction retry whose result replaces the current one only when its
reconciliation is at least as good. -/
def runStep4 (env : OrchestratorEnv) (opts : ProcessOptions)
    (r3 : ProcessingResult) (warns1 : List WarnMsg) :
    Except (ProcessingResult × String) ProcessingResult :=
  if opts.enableReconciliation ≠ some false then
    let reconciliation :=
      runReconciliation r3.transactions r3.openingBalance r3.closingBalance
    let rA := { r3 with
      calculatedClosing := reconciliation.calculatedClosing
      isReconciled := reconciliation.isReconciled
      reconciliationDifference := reconciliation.difference }
    match reconciliation.difference with
    | some d =>
      if reconciliation.isReconciled = false then
        let w2 := warns1 ++ [WarnMsg.reconciliationMismatch |d|]
        if rA.method ≠ Method.gemini ∧ rA.method ≠ Method.hybrid ∧
            1/100 < |d| ∧ env.hasGeminiKey = true then
          let w3 := w2 ++ [WarnMsg.geminiRetryAfterMismatch]
          match env.geminiReconRetry with
          | Except.error m => Except.error (rA, m)
          | Except.ok g =>
            let aiResult := processWithGemini g rA
            let aiRecon := runReconciliation aiResult.transactions
              aiResult.openingBalance aiResult.closingBalance
            let accept : Bool := aiRecon.isReconciled ||
              (match aiRecon.difference with
                | some d2 => decide (|d2| < |d|)
                | none => false)
            if accept = true then
              Except.ok (finalizeResult { aiResult with
                calculatedClosing := aiRecon.calculatedClosing
                isReconciled := aiRecon.isReconciled
                reconciliationDifference := aiRecon.difference
                method := Method.hybrid } w3)
            else Except.ok (finalizeResult rA w3)
        else Except.ok (finalizeResult rA w2)
      else Except.ok (finalizeResult rA warns1)
    | none => Except.ok (finalizeResult rA warns1)
  else Except.ok (finalizeResult r3 warns1)

/-- Step 3 of `processDocument` (lines 102-112): when confidence is below
the threshold and the method is not already Gemini, push the low-confidence
warning and, if a Gemini key is configured, try the Gemini fallback, keeping
its result only when strictly more confident. -/
def runStep3 (env : OrchestratorEnv) (opts : ProcessOptions)
    (r2 : ProcessingResult) :
    Except (ProcessingResult × String) ProcessingResult :=
  let confidenceThreshold := opts.confidenceThreshold.getD (7/10)
  if r2.confidence < confidenceThreshold ∧ r2.method ≠ Method.gemini then
    let w := [WarnMsg.lowConfidence r2.confidence]
    if env.hasGeminiKey = true then
      match env.geminiFallback with
      | Except.error m => Except.error (r2, m)
      | Except.ok g =>
        let aiResult := processWithGemini g r2
        if r2.confidence < aiResult.confidence then
          runStep4 env opts { aiResult with method := Method.hybrid } w
        else runStep4 env opts r2 w
    else runStep4 env opts r2 w
  else runStep4 env opts r2 []

/-- The `try` block of `processDocument` (lines 81-162): classification,
strategy routing (Gemini primary when a key is present and native is not
forced; native extraction for native PDFs; the Python worker otherwise),
then steps 3 and 4.  An `Except.error (r, m)` value models an exception
with message `m` thrown while the mutable `result` variable held `r`. -/
def processDocumentRun (env : OrchestratorEnv) (opts : ProcessOptions) :
    Except (ProcessingResult × String) ProcessingResult :=
  match env.detect with
  | Except.error m => Except.error (initialResult, m)
  | Except.ok pdfType =>
    let r1 := { initialResult with pageCount := pdfType.pageCount }
    if env.hasGeminiKey = true ∧ opts.forceMethod ≠ some ForceMethod.native then
      match env.geminiPrimary with
      | Except.error m => Except.error (r1, m)
      | Except.ok g => runStep3 env opts (processWithGemini g r1)
    else if pdfType.type = PdfKind.native then
      match env.nativeCall with
      | Except.error m => Except.error (r1, m)
      | Except.ok ex => runStep3 env opts (processNativePDF ex r1)
    else
      match env.scannedCall with
      | Except.error m => Except.error (r1, m)
      | Except.ok st =>
        runStep3 env opts
          (processScannedPDF st (pdfType.scanQuality.getD ScanQuality.good) r1)

/-- `processDocument` of `pdf-processor.ts`: run the `try` block; on an
exception append `Processing failed: <m>` to the errors the result held at
the throw point and return that result. -/
def processDocument (env : OrchestratorEnv) (opts : ProcessOptions) :
    ProcessingResult :=
  match processDocumentRun env opts with
  | Except.ok r => r
  | Except.error (r, m) =>
    { r with errors := r.errors ++ [ErrorMsg.processingFailed m] }

/-! The sub-processors spread the current result and never touch `success`. -/

theorem processWithGemini_success (g : Except String GeminiData)
    (c : ProcessingResult) : (processWithGemini g c).success = c.success := by
  cases g <;> rfl

theorem processNativePDF_success (ex : NativeExtraction) (c : ProcessingResult) :
    (processNativePDF ex c).success = c.success := rfl

theorem processScannedOCR_success (o : Except String ScanData) (q : ScanQuality)
    (c : ProcessingResult) : (processScannedOCR o q c).success = c.success := by
  cases o <;> rfl

theorem processScannedPDF_success (st : ScanStep) (q : ScanQuality)
    (c : ProcessingResult) : (processScannedPDF st q c).success = c.success := by
  unfold processScannedPDF
  split
  · split
    · rfl
    · exact processScannedOCR_success st.ocr q c
  · exact processScannedOCR_success st.ocr q c
  · exact processScannedOCR_success st.ocr q c

theorem runStep4_error_success (env : OrchestratorEnv) (opts : ProcessOptions)
    (r3 : ProcessingResult) (warns1 : List WarnMsg) (r : ProcessingResult)
    (m : String) (h : runStep4 env opts r3 warns1 = Except.error (r, m)) :
    r.success = r3.success := by
  simp only [runStep4] at h
  repeat' split at h
  all_goals
    simp only [Except.error.injEq, Prod.mk.injEq, reduceCtorEq] at h
  obtain ⟨h1, -⟩ := h
  rw [← h1]

theorem runStep3_error_success (env : OrchestratorEnv) (opts : ProcessOptions)
    (r2 : ProcessingResult) (r : ProcessingResult) (m : String)
    (h : runStep3 env opts r2 = Except.error (r, m)) :
    r.success = r2.success := by
  simp only [runStep3] at h
  repeat' split at h
  all_goals
    first
    | (simp only [Except.error.injEq, Prod.mk.injEq, reduceCtorEq] at h
       obtain ⟨h1, -⟩ := h
       rw [← h1])
    | (rw [runStep4_error_success _ _ _ _ _ _ h]
       try simp only [processWithGemini_success])

/-- At every throw point of the `try` block the mutable result still has
`success = false` (the final assignment is the last statement of the block). -/
theorem processDocumentRun_error_success (env : OrchestratorEnv)
    (opts : ProcessOptions) (r : ProcessingResult) (m : String)
    (h : processDocumentRun env opts = Except.error (r, m)) :
    r.success = false := by
  simp only [processDocumentRun] at h
  repeat' split at h
  all_goals
    first
    | (simp only [Except.error.injEq, Prod.mk.injEq, reduceCtorEq] at h
       obtain ⟨h1, -⟩ := h
       rw [← h1]
       try rfl)
    | (rw [runStep3_error_success _ _ _ _ _ h]
       try simp only [processWithGemini_success, processNativePDF_success,
         processScannedPDF_success]
       try rfl)

/-- C10: `processDocument` is a total function into `ProcessingResult`; if
any awaited step of the run rejected (the run value is an `Except.error`),
the top-level catch produces the result held at the throw point with a
`Processing failed` message appended, so the returned outcome has
`success = false` and a non-empty errors list. -/
theorem processDocument_catches_exceptions (env : OrchestratorEnv)
    (opts : ProcessOptions) (r : ProcessingResult) (m : String)
    (h : processDocumentRun env opts = Except.error (r, m)) :
    processDocument env opts
      = { r with errors := r.errors ++ [ErrorMsg.processingFailed m] } ∧
    (processDocument env opts).success = false ∧
    (processDocument env opts).errors ≠ [] := by
  have hs := processDocumentRun_error_success env opts r m h
  refine ⟨by rw [processDocument, h], ?_, ?_⟩
  · rw [processDocument, h]
    exact hs
  · rw [processDocument, h]
    simp

/-- Witness for `processDocument_catches_exceptions`: a run whose
classification step rejects. -/
theorem processDocument_catches_exceptions_witness :
    processDocumentRun
        { hasGeminiKey := false, detect := Except.error ("corrupt PDF"),
          geminiPrimary := Except.ok (Except.error ("unused")),
          geminiFallback := Except.ok (Except.error ("unused")),
          geminiReconRetry := Except.ok (Except.error ("unused")),
          nativeCall := Except.error ("unused"),
          scannedCall := Except.error ("unused") }
        { forceMethod := none, confidenceThreshold := none,
          enableReconciliation := none }
      = Except.error (initialResult, ("corrupt PDF")) ∧
    (processDocument
        { hasGeminiKey := false, detect := Except.error ("corrupt PDF"),
          geminiPrimary := Except.ok (Except.error ("unused")),
          geminiFallback := Except.ok (Except.error ("unused")),
          geminiReconRetry := Except.ok (Except.error ("unused")),
          nativeCall := Except.error ("unused"),
          scannedCall := Except.error ("unused") }
        { forceMethod := none, confidenceThreshold := none,
          enableReconciliation := none }).success = false ∧
    (processDocument
        { hasGeminiKey := false, detect := Except.error ("corrupt PDF"),
          geminiPrimary := Except.ok (Except.error ("unused")),
          geminiFallback := Except.ok (Except.error ("unused")),
          geminiReconRetry := Except.ok (Except.error ("unused")),
          nativeCall := Except.error ("unused"),
          scannedCall := Except.error ("unused") }
        { forceMethod := none, confidenceThreshold := none,
          enableReconciliation := none }).errors ≠ [] := by
  have hrun : processDocumentRun
      { hasGeminiKey := false, detect := Except.error ("corrupt PDF"),
        geminiPrimary := Except.ok (Except.error ("unused")),
        geminiFallback := Except.ok (Except.error ("unused")),
        geminiReconRetry := Except.ok (Except.error ("unused")),
        nativeCall := Except.error ("unused"),
        scannedCall := Except.error ("unused") }
      { forceMethod := none, confidenceThreshold := none,
        enableReconciliation := none }
      = Except.error (initialResult, ("corrupt PDF")) := rfl
  have h := processDocument_catches_exceptions _ _ _ _ hrun
  exact ⟨hrun, h.2.1, h.2.2⟩

/-- A forced two-strategy run for the error-accumulation claim: a Gemini key
is configured but native extraction is forced, so native runs first and
fails with zero transactions and one extractor error; its confidence 0 then
triggers the Gemini fallback, which also fails and is discarded (its
confidence does not exceed the current one). -/
def envC1 : OrchestratorEnv :=
  { hasGeminiKey := true
    detect := Except.ok
      { type := PdfKind.native, scanQuality := none, pageCount := 1,
        hasText := true, textDensity := 600, confidence := 95/100 }
    geminiPrimary := Except.ok (Except.error ("unused"))
    geminiFallback := Except.ok (Except.error ("Gemini API quota exceeded"))
    geminiReconRetry := Except.ok (Except.error ("unused"))
    nativeCall := Except.ok
      { success := false, bankDetected := none, transactions := [],
        openingBalance := none, closingBalance := none, pageCount := 1,
        confidence := 0,
        errors := [ErrorMsg.extractorMsg ("Extraction failed: no text layer")] }
    scannedCall := Except.error ("unused") }

def optsC1 : ProcessOptions :=
  { forceMethod := some ForceMethod.native, confidenceThreshold := none,
    enableReconciliation := none }

/-- C1: in a run where two strategies are attempted and both fail, the final
errors list is the single generic fallback message: the native extractor's
error is overwritten (line 160 assigns the local `errors` array over
`result.errors`) and the failed Gemini fallback's error is discarded with
the rejected fallback result, so neither failed strategy leaves a message
attributable to it. -/
theorem processDocument_errors_overwritten :
    (processDocument envC1 optsC1).errors = [ErrorMsg.noTransactionsDetected] ∧
    ErrorMsg.extractorMsg ("Extraction failed: no text layer")
      ∉ (processDocument envC1 optsC1).errors ∧
    ErrorMsg.geminiExtractionFailed ("Gemini API quota exceeded")
      ∉ (processDocument envC1 optsC1).errors ∧
    (processDocument envC1 optsC1).success = false := by
  have hrun : processDocument envC1 optsC1
      = finalizeResult
          { initialResult with
              pageCount := 1, method := Method.native,
              transactions := [], confidence := 0,
              errors := [ErrorMsg.extractorMsg ("Extraction failed: no text layer")],
              calculatedClosing := none, isReconciled := false,
              reconciliationDifference := none }
          [WarnMsg.lowConfidence 0] := by
    norm_num [processDocument, processDocumentRun, runStep3, runStep4,
      envC1, optsC1, processNativePDF, processWithGemini, runReconciliation,
      initialResult]
    simp
  rw [hrun]
  simp [finalizeResult]

/-- A run in which the only viable strategy (native; no Gemini key) returns
zero transactions, for the terminal-acceptance claim. -/
def envC7 : OrchestratorEnv :=
  { hasGeminiKey := false
    detect := Except.ok
      { type := PdfKind.native, scanQuality := none, pageCount := 2,
        hasText := true, textDensity := 800, confidence := 95/100 }
    geminiPrimary := Except.ok (Except.error ("unused"))
    geminiFallback := Except.ok (Except.error ("unused"))
    geminiReconRetry := Except.ok (Except.error ("unused"))
    nativeCall := Except.ok
      { success := true, bankDetected := none, transactions := [],
        openingBalance := none, closingBalance := none, pageCount := 2,
        confidence := 2/10,
        errors := [ErrorMsg.extractorMsg ("no transaction rows matched")] }
    scannedCall := Except.error ("unused") }

def optsC7 : ProcessOptions :=
  { forceMethod := none, confidenceThreshold := none,
    enableReconciliation := none }

/-- C7: when every attempted strategy yields zero transactions the outcome
does have `success = false` (success is the transaction count being
positive), but its errors list is exactly the generic
`No transactions detected` message — it does not name the attempted
strategy, whose own diagnostic is overwritten. -/
theorem processDocument_zero_transactions_generic_error :
    (processDocument envC7 optsC7).success = false ∧
    (processDocument envC7 optsC7).transactions = [] ∧
    (processDocument envC7 optsC7).errors = [ErrorMsg.noTransactionsDetected] ∧
    ErrorMsg.extractorMsg ("no transaction rows matched")
      ∉ (processDocument envC7 optsC7).errors := by
  have hrun : processDocument envC7 optsC7
      = finalizeResult
          { initialResult with
              pageCount := 2, method := Method.native,
              transactions := [], confidence := 1/5,
              errors := [ErrorMsg.extractorMsg ("no transaction rows matched")],
              calculatedClosing := none, isReconciled := false,
              reconciliationDifference := none }
          [WarnMsg.lowConfidence (1/5)] := by
    norm_num [processDocument, processDocumentRun, runStep3, runStep4,
      envC7, optsC7, processNativePDF, processWithGemini, runReconciliation,
      initialResult]
    simp
  rw [hrun]
  simp [finalizeResult]

/-! ### Line parser of `native-pdf-extractor.ts` (`parseTransactionLine`)

The regular expressions of the source are embedded as deterministic
character scanners on `List Char`.  For these particular patterns greedy
scanning without backtracking coincides with JavaScript regex semantics:
every bounded quantifier is over a character class disjoint from what
follows it, so shrinking a greedy match can never enable a later
sub-pattern.  `\d` is `Char.isDigit`, `\w` is alphanumeric-or-underscore,
`\s` is whitespace. -/

def isSpaceChar (c : Char) : Bool := c.isWhitespace

def isWordChar (c : Char) : Bool := c.isAlphanum || c = '_'

/-- Greedily take up to `max` digit characters. -/
def takeDigits : ℕ → List Char → List Char × List Char
  | 0, cs => ([], cs)
  | _+1, [] => ([], [])
  | n+1, c :: cs =>
    if c.isDigit then
      let p := takeDigits n cs
      (c :: p.1, p.2)
    else ([], c :: cs)

/-- Greedily take up to `max` word characters. -/
def takeWordChars : ℕ → List Char → List Char × List Char
  | 0, cs => ([], cs)
  | _+1, [] => ([], [])
  | n+1, c :: cs =>
    if isWordChar c then
      let p := takeWordChars n cs
      (c :: p.1, p.2)
    else ([], c :: cs)

/-- Match `(\d{1,2})<sep>(\d{1,2})(?:<sep>(\d{2,4}))?` at the head of the
input (patterns 1 and 2 of `DATE_PATTERNS_WITH_OPTIONAL_YEAR`). -/
def matchSepDateAt (sep : Char) (cs : List Char) :
    Option (List Char × List Char) :=
  let p1 := takeDigits 2 cs
  if p1.1 = [] then none
  else
    match p1.2 with
    | c :: r2 =>
      if c = sep then
        let p2 := takeDigits 2 r2
        if p2.1 = [] then none
        else
          match p2.2 with
          | c2 :: r4 =>
            if c2 = sep then
              let py := takeDigits 4 r4
              if 2 ≤ py.1.length then
                some (p1.1 ++ sep :: p2.1 ++ sep :: py.1, py.2)
              else some (p1.1 ++ sep :: p2.1, p2.2)
            else some (p1.1 ++ sep :: p2.1, p2.2)
          | [] => some (p1.1 ++ sep :: p2.1, p2.2)
      else none
    | [] => none

/-- Match `(\d{1,2})\s+(\w{3})(?:\s+(\d{4}))?` at the head of the input
(pattern 3). -/
def matchDayMonAt (cs : List Char) : Option (List Char × List Char) :=
  let p1 := takeDigits 2 cs
  if p1.1 = [] then none
  else
    let ws1 := p1.2.takeWhile isSpaceChar
    let r2 := p1.2.dropWhile isSpaceChar
    if ws1 = [] then none
    else
      let pw := takeWordChars 3 r2
      if pw.1.length ≠ 3 then none
      else
        let ws2 := pw.2.takeWhile isSpaceChar
        let r4 := pw.2.dropWhile isSpaceChar
        if ws2 ≠ [] then
          let py := takeDigits 4 r4
          if py.1.length = 4 then
            some (p1.1 ++ ws1 ++ pw.1 ++ ws2 ++ py.1, py.2)
          else some (p1.1 ++ ws1 ++ pw.1, pw.2)
        else some (p1.1 ++ ws1 ++ pw.1, pw.2)

/-- Match `(\w{3})\s+(\d{1,2}),?(?:\s+(\d{4}))?` at the head of the input
(pattern 4). -/
def matchMonDayAt (cs : List Char) : Option (List Char × List Char) :=
  let pw := takeWordChars 3 cs
  if pw.1.length ≠ 3 then none
  else
    let ws1 := pw.2.takeWhile isSpaceChar
    let r2 := pw.2.dropWhile isSpaceChar
    if ws1 = [] then none
    else
      let p1 := takeDigits 2 r2
      if p1.1 = [] then none
      else
        let pc : List Char × List Char := (match p1.2 with
          | ',' :: rest => ([','], rest)
          | _ => ([], p1.2))
        let ws2 := pc.2.takeWhile isSpaceChar
        let r5 := pc.2.dropWhile isSpaceChar
        if ws2 ≠ [] then
          let py := takeDigits 4 r5
          if py.1.length = 4 then
            some (pw.1 ++ ws1 ++ p1.1 ++ pc.1 ++ ws2 ++ py.1, py.2)
          else some (pw.1 ++ ws1 ++ p1.1 ++ pc.1, pc.2)
        else some (pw.1 ++ ws1 ++ p1.1 ++ pc.1, pc.2)

/-- Leftmost match of a head-anchored matcher, as a regex engine scans. -/
def scanFirst (matchAt : List Char → Option (List Char × List Char)) :
    List Char → Option (List Char)
  | [] => (matchAt []).map Prod.fst
  | c :: cs =>
    match matchAt (c :: cs) with
    | some p => some p.1
    | none => scanFirst matchAt cs

/-- The ordered date-pattern list of `parseTransactionLine`; the first
pattern with a match anywhere in the line wins. -/
def findDateMatch : List (List Char → Option (List Char × List Char)) →
    List Char → Option (List Char)
  | [], _ => none
  | p :: ps, line =>
    match scanFirst p line with
    | some m => some m
    | none => findDateMatch ps line

def datePatternsWithOptionalYear :
    List (List Char → Option (List Char × List Char)) :=
  [matchSepDateAt '/', matchSepDateAt '-', matchDayMonAt, matchMonDayAt]

/-- The `(?:,\d{3})*` thousands groups of `AMOUNT_PATTERN`, fuelled by the
input length (each group consumes four characters). -/
def takeCommaGroupsF : ℕ → List Char → List Char × List Char
  | 0, cs => ([], cs)
  | fuel+1, cs =>
    match cs with
    | ',' :: rest =>
      let pd := takeDigits 3 rest
      if pd.1.length = 3 then
        let pg := takeCommaGroupsF fuel pd.2
        ((',' :: pd.1) ++ pg.1, pg.2)
      else ([], cs)
    | _ => ([], cs)

/-- Match `[\$¥€£]?\s*-?\(?\d{1,3}(?:,\d{3})*(?:\.\d{2})?\)?`
(`AMOUNT_PATTERN`) at the head of the input. -/
def matchAmountAt (cs : List Char) : Option (List Char × List Char) :=
  let pc : List Char × List Char := (match cs with
    | c :: rest =>
      if c = '$' || c = '¥' || c = '€' || c = '£' then ([c], rest) else ([], cs)
    | [] => ([], cs))
  let ws := pc.2.takeWhile isSpaceChar
  let r1 := pc.2.dropWhile isSpaceChar
  let pn : List Char × List Char := (match r1 with
    | '-' :: rest => (['-'], rest)
    | _ => ([], r1))
  let pp : List Char × List Char := (match pn.2 with
    | '(' :: rest => (['('], rest)
    | _ => ([], pn.2))
  let pd := takeDigits 3 pp.2
  if pd.1 = [] then none
  else
    let pg := takeCommaGroupsF pd.2.length pd.2
    let pdec : List Char × List Char := (match pg.2 with
      | '.' :: rest =>
        let pf := takeDigits 2 rest
        if pf.1.length = 2 then ('.' :: pf.1, pf.2) else ([], pg.2)
      | _ => ([], pg.2))
    let pcl : List Char × List Char := (match pdec.2 with
      | ')' :: rest => ([')'], rest)
      | _ => ([], pdec.2))
    some (pc.1 ++ ws ++ pn.1 ++ pp.1 ++ pd.1 ++ pg.1 ++ pdec.1 ++ pcl.1, pcl.2)

/-- All matches of `AMOUNT_PATTERN` in scan order
(`textWithoutDate.match(AMOUNT_PATTERN)`), fuelled by the input length:
every match consumes at least its one mandatory digit. -/
def matchAllAmountsF : ℕ → List Char → List (List Char)
  | 0, _ => []
  | fuel+1, cs =>
    match cs with
    | [] => []
    | c :: cs' =>
      match matchAmountAt (c :: cs') with
      | some p => p.1 :: matchAllAmountsF fuel p.2
      | none => matchAllAmountsF fuel cs'

def matchAllAmounts (cs : List Char) : List (List Char) :=
  matchAllAmountsF cs.length cs

/-- Remove the first occurrence of `pat` from `s`
(JavaScript `s.replace(pat, <empty>)` with a string pattern). -/
def replaceFirst (s pat : List Char) : List Char :=
  match s with
  | [] => []
  | c :: cs =>
    if pat.isPrefixOf (c :: cs) then (c :: cs).drop pat.length
    else c :: replaceFirst cs pat

/-- JavaScript `String.prototype.trim`. -/
def jsTrim (s : List Char) : List Char :=
  ((s.dropWhile isSpaceChar).reverse.dropWhile isSpaceChar).reverse

/-- JavaScript `.replace(/\s+/g, <space>)`: collapse whitespace runs. -/
def collapseWsAux : Bool → List Char → List Char
  | _, [] => []
  | prevSpace, c :: cs =>
    if isSpaceChar c then
      if prevSpace then collapseWsAux true cs
      else ' ' :: collapseWsAux true cs
    else c :: collapseWsAux false cs

def collapseWs (cs : List Char) : List Char := collapseWsAux false cs

/-- `.replace(/[$,()¥€£]/g, <empty>)`. -/
def stripCurrencyChars (cs : List Char) : List Char :=
  cs.filter (fun c =>
    !(c = '$' || c = ',' || c = '(' || c = ')' || c = '¥' || c = '€' || c = '£'))

/-- `.replace('-', <empty>)`: removes only the first hyphen. -/
def removeFirstHyphen (cs : List Char) : List Char := replaceFirst cs ['-']

def digitsToNat (cs : List Char) : ℕ :=
  cs.foldl (fun acc c => acc * 10 + (c.toNat - 48)) 0

/-- JavaScript `parseFloat` restricted to plain decimal notation (no
exponent forms appear in this pipeline): skip leading whitespace, optional
sign, integer digits, optional fraction; `none` models `NaN`. -/
def jsParseFloat (cs : List Char) : Option ℚ :=
  let s1 := cs.dropWhile isSpaceChar
  let sgn : ℚ × List Char := (match s1 with
    | '-' :: r => (-1, r)
    | '+' :: r => (1, r)
    | _ => (1, s1))
  let intPart := sgn.2.takeWhile Char.isDigit
  let s3 := sgn.2.dropWhile Char.isDigit
  let fracPart : List Char := (match s3 with
    | '.' :: r => r.takeWhile Char.isDigit
    | _ => [])
  if intPart = [] ∧ fracPart = [] then none
  else some (sgn.1 * ((digitsToNat intPart : ℚ)
    + (digitsToNat fracPart : ℚ) / 10 ^ fracPart.length))

/-- The `validAmounts` filter of `parseTransactionLine` (lines 294-297):
strip currency characters and the first hyphen, parse, and keep plausible
magnitudes (`num >= 0.01 && num < 100000000`; `NaN` fails both). -/
def isPlausibleAmount (amt : List Char) : Bool :=
  match jsParseFloat (removeFirstHyphen (stripCurrencyChars amt)) with
  | some num => decide (1/100 ≤ num ∧ num < 100000000)
  | none => false

/-- `/\d{4}/.test(fullMatch)`: four consecutive digits somewhere. -/
def hasFourConsecDigits : List Char → Bool
  | c1 :: c2 :: c3 :: c4 :: rest =>
    (c1.isDigit && c2.isDigit && c3.isDigit && c4.isDigit)
      || hasFourConsecDigits (c2 :: c3 :: c4 :: rest)
  | _ => false

/-- `parseTransactionLine` of `native-pdf-extractor.ts` (lines 252-344).
The `lineIndex` parameter is unused, as in the source.  Notable modelled
behaviors: the transaction amount is taken from the LAST valid amount token
(line 302); a non-negative amount always yields `type = unknown` (the
`validAmounts.length >= 2` branch also assigns `unknown`); `confidence`
adds 0.2 for the date unconditionally (a date is mandatory here); `balance`
is parsed from the FIRST amount token when at least two are present. -/
def parseTransactionLine (line : String) (lineIndex : ℕ) (defaultYear : ℕ) :
    Option PTransaction :=
  let cs := line.toList
  match findDateMatch datePatternsWithOptionalYear cs with
  | none => none
  | some fullMatch =>
    let hasYear := hasFourConsecDigits fullMatch
    let date : List Char :=
      if hasYear then fullMatch
      else if fullMatch.contains '-' then
        fullMatch ++ '-' :: (toString defaultYear).toList
      else if fullMatch.contains '/' then
        fullMatch ++ '/' :: (toString defaultYear).toList
      else fullMatch ++ ' ' :: (toString defaultYear).toList
    let textWithoutDate := jsTrim (replaceFirst cs fullMatch)
    let validAmounts := (matchAllAmounts textWithoutDate).filter isPlausibleAmount
    if validAmounts = [] then none
    else
      let amountStr := (validAmounts.getLast?).getD []
      let isNegative := amountStr.contains '(' || amountStr.contains '-'
      match jsParseFloat (removeFirstHyphen (stripCurrencyChars amountStr)) with
      | none => none
      | some amountValue =>
        if amountValue = 0 then none
        else
          let type : TxType :=
            if isNegative then TxType.debit else TxType.unknown
          let description :=
            validAmounts.foldl (fun d amt => jsTrim (replaceFirst d amt))
              textWithoutDate
          let description2 := jsTrim (collapseWs description)
          if description2.length < 3 then none
          else
            let confidence : ℚ := 1/2 + 1/5
              + (if 0 < amountValue then (1/5 : ℚ) else 0)
              + (if 10 < description2.length then (1/10 : ℚ) else 0)
            some
              { date := some (String.mk date)
                description := String.mk (description2.take 200)
                amount := some (if type = TxType.debit then -amountValue
                  else amountValue)
                type := type
                balance := (if 1 < validAmounts.length then
                    jsParseFloat (stripCurrencyChars ((validAmounts.head?).getD []))
                  else none)
                confidence := confidence
                bbox := none
                rawText := line }

/-- C2: on the line `01/15/2024 GROCERY STORE 45.00 1,234.56` (transaction
amount followed by running balance) the layout-text line parser returns
amount 1234.56 — the LAST numeric token, i.e. the running-balance column —
not 45.00: `parseTransactionLine` takes
`validAmounts[validAmounts.length - 1]` as the amount and performs no
column-position inference.  (The first token 45.00 is stored as `balance`.) -/
theorem parseTransactionLine_last_number_defect :
    parseTransactionLine ("01/15/2024 GROCERY STORE 45.00 1,234.56") 0 2024
      = some
        { date := some ("01/15/2024"), description := ("GROCERY STORE"),
          amount := some (123456/100), type := TxType.unknown,
          balance := some 45, confidence := 1, bbox := none,
          rawText := ("01/15/2024 GROCERY STORE 45.00 1,234.56") } ∧
    (123456/100 : ℚ) ≠ 45 := by
  have hc1 : ('1').toNat = 49 := rfl
  have hc2 : ('2').toNat = 50 := rfl
  have hc3 : ('3').toNat = 51 := rfl
  have hc4 : ('4').toNat = 52 := rfl
  have hc5 : ('5').toNat = 53 := rfl
  have hc6 : ('6').toNat = 54 := rfl
  have hq1 : isPlausibleAmount [' ', '4', '5', '.', '0', '0'] = true := by
    norm_num +decide [isPlausibleAmount, stripCurrencyChars, removeFirstHyphen,
      replaceFirst, jsParseFloat, digitsToNat, isSpaceChar, hc1, hc2, hc3, hc4,
      hc5, hc6]
  have hq2 : isPlausibleAmount [' ', '1', ',', '2', '3', '4', '.', '5', '6'] = true := by
    norm_num +decide [isPlausibleAmount, stripCurrencyChars, removeFirstHyphen,
      replaceFirst, jsParseFloat, digitsToNat, isSpaceChar, hc1, hc2, hc3, hc4,
      hc5, hc6]
  have hp1 : jsParseFloat (stripCurrencyChars [' ', '4', '5', '.', '0', '0'])
      = some 45 := by
    norm_num +decide [stripCurrencyChars, jsParseFloat, digitsToNat, isSpaceChar,
      hc4, hc5]
  have hp2 : jsParseFloat (removeFirstHyphen (stripCurrencyChars
      [' ', '1', ',', '2', '3', '4', '.', '5', '6'])) = some (30864/25) := by
    norm_num +decide [stripCurrencyChars, removeFirstHyphen, replaceFirst,
      jsParseFloat, digitsToNat, isSpaceChar, hc1, hc2, hc3, hc4, hc5, hc6]
  refine ⟨?_, by norm_num⟩
  norm_num +decide [parseTransactionLine, findDateMatch, datePatternsWithOptionalYear,
    scanFirst, matchSepDateAt, takeDigits, hasFourConsecDigits, replaceFirst,
    jsTrim, isSpaceChar, matchAllAmounts, matchAllAmountsF, matchAmountAt,
    takeCommaGroupsF, collapseWs, collapseWsAux, String.toList, hq1, hq2, hp1, hp2]

end LedgerParse
